import Mathlib

/-!
Verification of the `model-monitor` repository's workflow logic.

The repository drives an AWS SageMaker Model Monitor demo workflow.  The
inference-driver replay loops, the drift-data preprocessing and the
`batch_size` constant are embedded from `src/unnamed/part_000` (a Jupyter
notebook).  The status poll loops, the resource-provisioning cells and
the executable teardown cells are embedded from the checkpoint notebook
`src/third-party-models/prosper/notebooks/.ipynb_checkpoints/monitoring_data_quality_of_models-checkpoint.ipynb`
(a concatenation of notebook documents; line numbers below refer to that
file).

Floating-point field values are modelled by their decimal string
renderings, which is exactly what the CSV serialization layer consumes.
-/

namespace ModelMonitor

/-- The `batch_size = 15` constant of the first notebook cell. -/
def batch_size : Nat := 15

/-- Python's `sep.join(xs)` on a list of strings: empty for `[]`, the sole
element for `[x]`, otherwise the elements interleaved with `sep`. -/
def pyJoin (sep : String) : List String → String
  | [] => ""
  | [x] => x
  | x :: y :: xs => x ++ sep ++ pyJoin sep (y :: xs)

/-- One emitted record of the inference driver: the `(index, input,
prediction)` data printed by
`print('Sample {0} >> Input: {1}: >> Prediction: {2}' ...)`. -/
structure Triple (α : Type) where
  index : Nat
  input : α
  prediction : String
deriving Repr, DecidableEq

/-- The replay loop of the inference driver
(`for index, sample in enumerate(rows): if len(sample) > 0:
response = predictor.predict(sample); print(...)`), embedded from
`src/unnamed/part_000` lines 157-171 (baseline loop) and 222-236 (drift
loop).  `rowLen` is Python's `len` on a sample, `ser` the serializer
applied by `predictor.predict` (CSVSerializer for the baseline loop, the
identity for the already-serialized drift rows), `endpoint` the live
endpoint.  Returns the emitted triples together with the
`(index, payload)` invocations submitted to the endpoint, in order. -/
def inferLoop {α : Type} (rowLen : α → Nat) (ser : α → String)
    (endpoint : String → String) :
    Nat → List α → List (Triple α) × List (Nat × String)
  | _, [] => ([], [])
  | i, s :: rest =>
    if 0 < rowLen s then
      let payload := ser s
      let response := endpoint payload
      let p := inferLoop rowLen ser endpoint (i + 1) rest
      (⟨i, s, response⟩ :: p.1, (i, payload) :: p.2)
    else
      inferLoop rowLen ser endpoint (i + 1) rest

/-- A full run of the inference driver over a dataset (`enumerate` starts
the index at 0). -/
def runDriver {α : Type} (rowLen : α → Nat) (ser : α → String)
    (endpoint : String → String) (rows : List α) :
    List (Triple α) × List (Nat × String) :=
  inferLoop rowLen ser endpoint 0 rows

theorem inferLoop_fst {α : Type} (rowLen : α → Nat) (ser : α → String)
    (endpoint : String → String) :
    ∀ (rows : List α) (i : Nat),
      (inferLoop rowLen ser endpoint i rows).1 =
        ((rows.enumFrom i).filter (fun p => 0 < rowLen p.2)).map
          (fun p => ⟨p.1, p.2, endpoint (ser p.2)⟩) := by
  intro rows
  induction rows with
  | nil => intro i; simp [inferLoop, List.enumFrom]
  | cons s rest ih =>
    intro i
    by_cases h : 0 < rowLen s
    · simp [inferLoop, List.enumFrom, h, List.filter, ih (i + 1)]
    · simp [inferLoop, List.enumFrom, h, List.filter, ih (i + 1)]

theorem inferLoop_snd {α : Type} (rowLen : α → Nat) (ser : α → String)
    (endpoint : String → String) :
    ∀ (rows : List α) (i : Nat),
      (inferLoop rowLen ser endpoint i rows).2 =
        ((rows.enumFrom i).filter (fun p => 0 < rowLen p.2)).map
          (fun p => (p.1, ser p.2)) := by
  intro rows
  induction rows with
  | nil => intro i; simp [inferLoop, List.enumFrom]
  | cons s rest ih =>
    intro i
    by_cases h : 0 < rowLen s
    · simp [inferLoop, List.enumFrom, h, List.filter, ih (i + 1)]
    · simp [inferLoop, List.enumFrom, h, List.filter, ih (i + 1)]

/-- The part of Python's join after the first element: `sep ++ a` for each
remaining element `a`. -/
def pyJoinTail (sep : String) : List String → String
  | [] => ""
  | a :: as => sep ++ a ++ pyJoinTail sep as

theorem intercalate_go_eq (sep : String) :
    ∀ (as : List String) (acc : String),
      String.intercalate.go acc sep as = acc ++ pyJoinTail sep as := by
  intro as
  induction as with
  | nil => intro acc; simp [String.intercalate.go, pyJoinTail]
  | cons a as ih =>
    intro acc
    simp [String.intercalate.go, pyJoinTail, ih, String.append_assoc]

theorem pyJoin_cons_eq (sep : String) :
    ∀ (as : List String) (a : String),
      pyJoin sep (a :: as) = a ++ pyJoinTail sep as := by
  intro as
  induction as with
  | nil => intro a; simp [pyJoin, pyJoinTail]
  | cons b bs ih =>
    intro a
    simp [pyJoin, pyJoinTail, ih b, String.append_assoc]

theorem pyJoin_eq_intercalate (sep : String) (row : List String) :
    pyJoin sep row = String.intercalate sep row := by
  match row with
  | [] => rfl
  | a :: as =>
    show pyJoin sep (a :: as) = String.intercalate.go a sep as
    rw [intercalate_go_eq, pyJoin_cons_eq]

theorem pyJoin_comma_count (row : List String)
    (h : ∀ f ∈ row, ',' ∉ f.data) :
    ((pyJoin "," row).data.count ',') = row.length - 1 := by
  match row with
  | [] => rfl
  | [x] =>
    have hx : ',' ∉ x.data := h x (by simp)
    simp [pyJoin, List.count_eq_zero.mpr hx]
  | x :: y :: xs =>
    have hx : ',' ∉ x.data := h x (by simp)
    have ht := pyJoin_comma_count (y :: xs) (fun f hf => h f (by simp [hf]))
    show (((x ++ ",") ++ pyJoin "," (y :: xs)).data.count ',') = _
    rw [String.data_append, String.data_append, List.count_append,
      List.count_append, List.count_eq_zero.mpr hx, ht]
    simp [Nat.add_comm]

/-- C1: over any dataset of non-empty rows, the inference driver emits
exactly one `(index, input, prediction)` triple per row, in the original
order of the rows, with the index equal to the row's original position —
no row duplicated, dropped, or reordered. -/
theorem driver_emits_one_triple_per_row_in_order {α : Type}
    (rowLen : α → Nat) (ser : α → String) (endpoint : String → String)
    (rows : List α) (hne : ∀ s ∈ rows, 0 < rowLen s) :
    (runDriver rowLen ser endpoint rows).1 =
      rows.enum.map (fun p => ⟨p.1, p.2, endpoint (ser p.2)⟩) := by
  unfold runDriver
  rw [inferLoop_fst]
  show ((rows.enum.filter _).map _) = _
  rw [List.filter_eq_self.mpr]
  intro p hp
  have hget : rows.get? p.1 = some p.2 := List.mem_enum_iff_get?.mp hp
  exact decide_eq_true (hne p.2 (List.get?_mem hget))

theorem driver_emits_one_triple_per_row_in_order_witness :
    (runDriver String.length id (fun s => s ++ "!") ["a", "bb"]).1 =
      [⟨0, "a", "a!"⟩, ⟨1, "bb", "bb!"⟩] := by
  rw [driver_emits_one_triple_per_row_in_order String.length id
    (fun s => s ++ "!") ["a", "bb"] (by decide)]
  rfl

/-- C4: a row of length zero is never submitted to the endpoint: the
`len(sample) > 0` guard makes the predict call unreachable for it, so no
invocation carrying that row's index appears in the call trace. -/
theorem empty_row_never_invokes_endpoint {α : Type}
    (rowLen : α → Nat) (ser : α → String) (endpoint : String → String)
    (rows : List α) (i : Nat) (hi : i < rows.length)
    (hz : rowLen (rows.get ⟨i, hi⟩) = 0) (pay : String) :
    (i, pay) ∉ (runDriver rowLen ser endpoint rows).2 := by
  unfold runDriver
  rw [inferLoop_snd]
  intro hmem
  simp only [List.mem_map] at hmem
  obtain ⟨p, hp, hpe⟩ := hmem
  rw [List.mem_filter] at hp
  obtain ⟨hpenum, hppos⟩ := hp
  have h1 : p.1 = i := congrArg Prod.fst hpe
  have hget : rows.get? p.1 = some p.2 := List.mem_enum_iff_get?.mp hpenum
  rw [h1, List.get?_eq_get hi] at hget
  have h2 : p.2 = rows.get ⟨i, hi⟩ := (Option.some_inj.mp hget).symm
  rw [h2, hz] at hppos
  exact absurd (of_decide_eq_true hppos) (by simp)

theorem empty_row_never_invokes_endpoint_witness :
    (1, "x") ∉ (runDriver String.length id (fun s => s) ["a", "", "b"]).2 :=
  empty_row_never_invokes_endpoint String.length id (fun s => s)
    ["a", "", "b"] 1 (by decide) (by decide) "x"

/-- C7: serializing the row whose fields render as `5.0, 2.3, 3.3, 1.0`
yields exactly the string `5.0,2.3,3.3,1.0`; in general the Python
comma-join used by the driver agrees with the comma-join of the field
values (`String.intercalate`), and for comma-free fields the payload has
exactly `row.length - 1` comma characters: single separators and no
trailing delimiter. -/
theorem csv_serialization_comma_join :
    pyJoin "," ["5.0", "2.3", "3.3", "1.0"] = "5.0,2.3,3.3,1.0" ∧
    (∀ row : List String, pyJoin "," row = String.intercalate "," row) ∧
    (∀ row : List String, (∀ f ∈ row, ',' ∉ f.data) →
      ((pyJoin "," row).data.count ',') = row.length - 1) :=
  ⟨by rfl, pyJoin_eq_intercalate ",", pyJoin_comma_count⟩

theorem csv_serialization_comma_join_witness :
    pyJoin "," ["5.0", "2.3", "3.3", "1.0"] = "5.0,2.3,3.3,1.0" ∧
    ((pyJoin "," ["5.0", "2.3", "3.3", "1.0"]).data.count ',') = 3 := by
  refine ⟨csv_serialization_comma_join.1, ?_⟩
  have h := csv_serialization_comma_join.2.2 ["5.0", "2.3", "3.3", "1.0"]
    (by decide)
  simpa using h

theorem runDriver_calls_map_snd {α : Type} (rowLen : α → Nat)
    (ser : α → String) (endpoint : String → String) (rows : List α)
    (hne : ∀ s ∈ rows, 0 < rowLen s) :
    ((runDriver rowLen ser endpoint rows).2).map Prod.snd = rows.map ser := by
  unfold runDriver
  rw [inferLoop_snd]
  show (((rows.enum.filter _).map _).map _) = _
  rw [List.filter_eq_self.mpr]
  · rw [List.map_map]
    have h2 : (Prod.snd ∘ fun p : Nat × α => (p.1, ser p.2)) = ser ∘ Prod.snd := rfl
    rw [h2, ← List.map_map]
    show List.map ser (List.map Prod.snd (rows.enumFrom 0)) = List.map ser rows
    rw [List.enumFrom_map_snd]
  · intro p hp
    have hget : rows.get? p.1 = some p.2 := List.mem_enum_iff_get?.mp hp
    exact decide_eq_true (hne p.2 (List.get?_mem hget))

theorem pyJoin_length_pos (a b : String) (rest : List String) :
    0 < (pyJoin "," (a :: b :: rest)).length := by
  show 0 < ((a ++ ",") ++ pyJoin "," (b :: rest)).length
  rw [String.length_append, String.length_append]
  have h1 : ",".length = 1 := rfl
  omega

/-- C6: replaying a drift dataset of 10 rows, each the comma-join of 4
integer fields (negative values included), submits all 10 rows to the
endpoint exactly as given, in order, with no value substituted, clamped,
filtered or otherwise modified between the dataset and the payload. -/
theorem drift_rows_submitted_unmodified
    (endpoint : String → String) (fieldRows : List (List Int))
    (h10 : fieldRows.length = 10)
    (h4 : ∀ r ∈ fieldRows, r.length = 4) :
    ((runDriver String.length (fun s => s) endpoint
        (fieldRows.map (fun r => pyJoin "," (r.map toString)))).2).map
      Prod.snd =
      fieldRows.map (fun r => pyJoin "," (r.map toString)) := by
  have hne : ∀ s ∈ fieldRows.map (fun r => pyJoin "," (r.map toString)),
      0 < s.length := by
    intro s hs
    rw [List.mem_map] at hs
    obtain ⟨r, hr, hrs⟩ := hs
    have hlen := h4 r hr
    match r, hlen with
    | [i1, i2, i3, i4], _ =>
      rw [← hrs]
      exact pyJoin_length_pos (toString i1) (toString i2)
        [toString i3, toString i4]
  have h := runDriver_calls_map_snd String.length (fun s => s) endpoint
    (fieldRows.map (fun r => pyJoin "," (r.map toString))) hne
  simpa using h

theorem drift_rows_submitted_unmodified_witness :
    ((runDriver String.length (fun s => s) (fun _ => "setosa")
        (([[2, 4, 1, -3], [0, 0, -4, 3], [-4, 2, -4, 2], [4, -4, -3, -3],
           [2, -2, 2, 3], [1, -4, 3, -4], [2, -1, 4, 0], [2, -3, -4, -1],
           [3, -3, 2, 1], [1, 0, -2, 4]] : List (List Int)).map
          (fun r => pyJoin "," (r.map toString)))).2).map Prod.snd =
      ([[2, 4, 1, -3], [0, 0, -4, 3], [-4, 2, -4, 2], [4, -4, -3, -3],
        [2, -2, 2, 3], [1, -4, 3, -4], [2, -1, 4, 0], [2, -3, -4, -1],
        [3, -3, 2, 1], [1, 0, -2, 4]] : List (List Int)).map
        (fun r => pyJoin "," (r.map toString)) :=
  drift_rows_submitted_unmodified (fun _ => "setosa") _ (by rfl) (by decide)

/-- Baseline preprocessing of the baseline cell
(`src/unnamed/part_000` lines 147-157): `iris_df.values.tolist()` yields
the data rows (no header row is present in the list); rows are tagged here
with their original position so the shuffle can be tracked.  The statement
`samples = samples[1:]` unconditionally discards element 0. -/
def droppedFirst {α : Type} (samples : List α) : List (Nat × α) :=
  samples.enum.drop 1

/-- `random.shuffle(samples)` followed by `samples[0:batch_size]`: the
shuffle is modelled as an arbitrary permutation of the remaining rows, and
the replay loop consumes only the first `batch_size` elements. -/
def replayedRows {α : Type} (shuffled : List (Nat × α)) : List (Nat × α) :=
  shuffled.take batch_size

theorem mem_droppedFirst_fst_pos {α : Type} (samples : List α)
    (p : Nat × α) (hp : p ∈ droppedFirst samples) : 1 ≤ p.1 := by
  cases samples with
  | nil => simp [droppedFirst] at hp
  | cons s rest =>
    have he : droppedFirst (s :: rest) = rest.enumFrom 1 := rfl
    rw [he] at hp
    rcases p with ⟨i, x⟩
    exact (List.mk_mem_enumFrom_iff_le_and_get?_sub.mp hp).1

theorem runDriver_triple_input_mem {α : Type} (rowLen : α → Nat)
    (ser : α → String) (endpoint : String → String) (rows : List α) :
    ∀ t ∈ (runDriver rowLen ser endpoint rows).1, t.input ∈ rows := by
  intro t ht
  unfold runDriver at ht
  rw [inferLoop_fst] at ht
  rw [List.mem_map] at ht
  obtain ⟨p, hp, hpt⟩ := ht
  rw [List.mem_filter] at hp
  have hget : rows.get? p.1 = some p.2 := List.mem_enum_iff_get?.mp hp.1
  have h2 : t.input = p.2 := by rw [← hpt]
  rw [h2]
  exact List.get?_mem hget

/-- C9: in the baseline driver of the unnamed notebook, the original data
row 0 is never submitted: after `samples[1:]` discards element 0, any
shuffle of the remainder and the `samples[0:batch_size]` slice contain
only rows of original position at least 1, so no emitted triple carries
the original first row. -/
theorem first_data_row_never_submitted {α : Type}
    (rowLen : α → Nat) (ser : α → String) (endpoint : String → String)
    (samples : List α) (shuffled : List (Nat × α))
    (hperm : shuffled.Perm (droppedFirst samples)) (r : α) :
    (0, r) ∉ replayedRows shuffled ∧
      ∀ t ∈ (runDriver (fun p => rowLen p.2) (fun p => ser p.2) endpoint
          (replayedRows shuffled)).1, t.input.1 ≠ 0 := by
  have hsub : ∀ q ∈ replayedRows shuffled, 1 ≤ q.1 := by
    intro q hq
    exact mem_droppedFirst_fst_pos samples q
      (hperm.subset (List.take_subset batch_size shuffled hq))
  constructor
  · intro hmem
    exact absurd (hsub (0, r) hmem) (by simp)
  · intro t ht
    have hin := runDriver_triple_input_mem (fun p => rowLen p.2)
      (fun p => ser p.2) endpoint (replayedRows shuffled) t ht
    have := hsub t.input hin
    omega

theorem first_data_row_never_submitted_witness :
    ((0 : Nat), "a") ∉ replayedRows [(2, "c"), (1, "b")] :=
  (first_data_row_never_submitted String.length id (fun s => s)
    ["a", "b", "c"] [(2, "c"), (1, "b")] (by decide) "a").1

/-- The replay loop with a fallible endpoint client: `predictor.predict`
may raise (e.g. a network error), in which case the exception propagates
out of the `for` loop uncaught — there is no try/except in either replay
cell.  `endpoint i payload` is the invocation made for row index `i`;
the first component is the trace of submitted `(index, payload)`
invocations (including a failing one), the second the outcome. -/
def inferLoopE {α ε : Type} (rowLen : α → Nat) (ser : α → String)
    (endpoint : Nat → String → Except ε String) :
    Nat → List α → List (Nat × String) × Except ε (List (Triple α))
  | _, [] => ([], Except.ok [])
  | i, s :: rest =>
    if 0 < rowLen s then
      match endpoint i (ser s) with
      | Except.error err => ([(i, ser s)], Except.error err)
      | Except.ok resp =>
        let p := inferLoopE rowLen ser endpoint (i + 1) rest
        ((i, ser s) :: p.1, p.2.map (fun ts => ⟨i, s, resp⟩ :: ts))
    else
      inferLoopE rowLen ser endpoint (i + 1) rest

/-- A full fallible run of the inference driver over a dataset. -/
def runDriverE {α ε : Type} (rowLen : α → Nat) (ser : α → String)
    (endpoint : Nat → String → Except ε String) (rows : List α) :
    List (Nat × String) × Except ε (List (Triple α)) :=
  inferLoopE rowLen ser endpoint 0 rows

theorem inferLoopE_abort {α ε : Type} (rowLen : α → Nat) (ser : α → String)
    (endpoint : Nat → String → Except ε String) (e : ε) :
    ∀ (rows : List α) (i k : Nat) (sk : α),
      rows.get? k = some sk →
      0 < rowLen sk →
      endpoint (i + k) (ser sk) = Except.error e →
      (∀ j, j < k → ∀ sj, rows.get? j = some sj → 0 < rowLen sj →
        ∃ resp, endpoint (i + j) (ser sj) = Except.ok resp) →
      (inferLoopE rowLen ser endpoint i rows).2 = Except.error e ∧
      (inferLoopE rowLen ser endpoint i rows).1 =
        (((rows.enumFrom i).take (k + 1)).filter
          (fun p => 0 < rowLen p.2)).map (fun p => (p.1, ser p.2)) := by
  intro rows
  induction rows with
  | nil => intro i k sk hsk; simp at hsk
  | cons s rest ih =>
    intro i k sk hsk hgk hfail hpre
    cases k with
    | zero =>
      have hs : s = sk := by simpa using hsk
      rw [← hs] at hgk hfail
      have hfail' : endpoint i (ser s) = Except.error e := by
        simpa using hfail
      have hred : inferLoopE rowLen ser endpoint i (s :: rest) =
          ([(i, ser s)], Except.error e) := by
        simp only [inferLoopE]
        rw [if_pos hgk, hfail']
      rw [hred]
      refine ⟨rfl, ?_⟩
      simp [List.enumFrom_cons, hgk]
    | succ k' =>
      have hsk' : rest.get? k' = some sk := by simpa using hsk
      have hfail' : endpoint (i + 1 + k') (ser sk) = Except.error e := by
        have heq : i + 1 + k' = i + (k' + 1) := by omega
        rw [heq]
        exact hfail
      have hpre' : ∀ j, j < k' → ∀ sj, rest.get? j = some sj →
          0 < rowLen sj →
          ∃ resp, endpoint (i + 1 + j) (ser sj) = Except.ok resp := by
        intro j hj sj hsj hpos
        have h := hpre (j + 1) (by omega) sj (by simpa using hsj) hpos
        have heq : i + (j + 1) = i + 1 + j := by omega
        rw [heq] at h
        exact h
      obtain ⟨ih1, ih2⟩ := ih (i + 1) k' sk hsk' hgk hfail' hpre'
      by_cases hgs : 0 < rowLen s
      · obtain ⟨resp, hok⟩ := hpre 0 (Nat.succ_pos k') s (by simp) hgs
        have hok' : endpoint i (ser s) = Except.ok resp := by simpa using hok
        have hred : inferLoopE rowLen ser endpoint i (s :: rest) =
            ((i, ser s) :: (inferLoopE rowLen ser endpoint (i + 1) rest).1,
             ((inferLoopE rowLen ser endpoint (i + 1) rest).2).map
               (fun ts => ⟨i, s, resp⟩ :: ts)) := by
          simp only [inferLoopE]
          rw [if_pos hgs, hok']
        rw [hred]
        constructor
        · show Except.map _ _ = _
          rw [ih1]
          rfl
        · show (i, ser s) :: _ = _
          rw [ih2]
          simp [List.enumFrom_cons, hgs]
      · have hred : inferLoopE rowLen ser endpoint i (s :: rest) =
            inferLoopE rowLen ser endpoint (i + 1) rest := by
          simp only [inferLoopE]
          rw [if_neg hgs]
        rw [hred]
        refine ⟨ih1, ?_⟩
        rw [ih2]
        simp [List.enumFrom_cons, hgs]

/-- C8: if the endpoint invocation raises at (non-empty) row `k` of the
replayed dataset and every earlier submitted row succeeded, the exception
propagates out of the loop: the run's outcome is that error, the failed
row is submitted exactly once (no retry), and no row after index `k` is
submitted — the call trace is exactly the non-empty rows among the first
`k + 1`. -/
theorem endpoint_error_aborts_batch {α ε : Type} (rowLen : α → Nat)
    (ser : α → String) (endpoint : Nat → String → Except ε String)
    (rows : List α) (k : Nat) (sk : α) (e : ε)
    (hsk : rows.get? k = some sk) (hgk : 0 < rowLen sk)
    (hfail : endpoint k (ser sk) = Except.error e)
    (hpre : ∀ j, j < k → ∀ sj, rows.get? j = some sj → 0 < rowLen sj →
      ∃ resp, endpoint j (ser sj) = Except.ok resp) :
    (runDriverE rowLen ser endpoint rows).2 = Except.error e ∧
    (runDriverE rowLen ser endpoint rows).1 =
      ((rows.enum.take (k + 1)).filter (fun p => 0 < rowLen p.2)).map
        (fun p => (p.1, ser p.2)) := by
  have h := inferLoopE_abort rowLen ser endpoint e rows 0 k sk hsk hgk
    (by simpa using hfail)
    (by intro j hj sj hsj hpos; simpa using hpre j hj sj hsj hpos)
  exact h

theorem endpoint_error_aborts_batch_witness :
    (runDriverE String.length id
        (fun j _ => if j = 2 then Except.error "network"
          else Except.ok "setosa")
        ["aa", "", "b", "c"]).2 = Except.error "network" ∧
    (runDriverE String.length id
        (fun j _ => if j = 2 then Except.error "network"
          else Except.ok "setosa")
        ["aa", "", "b", "c"]).1 = [(0, "aa"), (2, "b")] := by
  have h := endpoint_error_aborts_batch String.length id
    (fun j _ => if j = 2 then Except.error "network" else Except.ok "setosa")
    ["aa", "", "b", "c"] 2 "b" "network" (by rfl) (by decide) (by rfl)
    (by
      intro j hj sj hsj hpos
      interval_cases j
      · exact ⟨"setosa", rfl⟩
      · have hsj' : sj = "" := by simpa using hsj.symm
        rw [hsj'] at hpos
        exact absurd hpos (by decide))
  exact ⟨h.1, h.2.trans (by rfl)⟩

/-- The status poll loops of the checkpoint notebook (endpoint loop,
lines 966-994: `describe_endpoint`, then
`while model_endpoint_status == 'Creating': time.sleep(45);
describe_endpoint` — and the identical processing-job loop, lines
1762-1790, with `describe_processing_job` and `'InProgress'`).  `fetch t`
is the status string obtained by the t-th describe call: the initial read
happens before the loop, each further read inside the body after the
fixed 45 s sleep, and the value left in the status variable when the
condition fails is what the cell ends with.  The real loop has no
timeout, so termination is modelled by explicit fuel: `none` means the
loop was still polling when the fuel ran out. -/
def pollStatus (inProgress : String) (fetch : Nat → String) :
    Nat → Nat → Option String
  | 0, _ => none
  | fuel + 1, t =>
    if fetch t = inProgress then pollStatus inProgress fetch fuel (t + 1)
    else some (fetch t)

/-- C2: whenever the poll loop terminates, the status it last observed is
not the in-progress state (`Creating` for endpoints, `InProgress` for the
baselining job): the returned status is some later read that differs from
the in-progress value, and every read before it was still in-progress, so
the loop never exits while the observed status is in-progress. -/
theorem poller_returns_only_on_non_inprogress (inProgress : String)
    (fetch : Nat → String) (fuel t : Nat) (s : String)
    (h : pollStatus inProgress fetch fuel t = some s) :
    s ≠ inProgress ∧ ∃ d, s = fetch (t + d) ∧
      ∀ j, j < d → fetch (t + j) = inProgress := by
  induction fuel generalizing t with
  | zero => simp [pollStatus] at h
  | succ n ih =>
    by_cases hc : fetch t = inProgress
    · have h' : pollStatus inProgress fetch n (t + 1) = some s := by
        simpa [pollStatus, hc] using h
      obtain ⟨hne, d, hd, hj⟩ := ih (t + 1) h'
      refine ⟨hne, d + 1, ?_, ?_⟩
      · rw [hd]
        congr 1
        omega
      · intro j hj'
        cases j with
        | zero => simpa using hc
        | succ j' =>
          have h2 := hj j' (by omega)
          have heq : t + (j' + 1) = t + 1 + j' := by omega
          rw [heq]
          exact h2
    · have hs : s = fetch t := by
        have := h
        simp [pollStatus, hc] at this
        exact this.symm
      refine ⟨by rw [hs]; exact hc, 0, by simpa using hs, by omega⟩

theorem poller_returns_only_on_non_inprogress_witness :
    pollStatus "Creating" (fun t => if t < 2 then "Creating" else "InService")
      5 0 = some "InService" ∧ "InService" ≠ "Creating" :=
  ⟨by rfl,
   (poller_returns_only_on_non_inprogress "Creating"
     (fun t => if t < 2 then "Creating" else "InService") 5 0 "InService"
     (by rfl)).1⟩

/-- C10: every status other than the single in-progress value is treated
as completion: if the current read is any other value — `Failed`
included — the loop exits normally in that very iteration, returning that
status as a plain value with no error raised or signalled. -/
theorem poller_exits_on_any_non_inprogress (inProgress : String)
    (fetch : Nat → String) (fuel t : Nat) (h : fetch t ≠ inProgress) :
    pollStatus inProgress fetch (fuel + 1) t = some (fetch t) := by
  simp [pollStatus, h]

theorem poller_exits_on_any_non_inprogress_witness :
    pollStatus "InProgress" (fun _ => "Failed") 4 0 = some "Failed" :=
  poller_exits_on_any_non_inprogress "InProgress" (fun _ => "Failed") 3 0
    (by decide)

/-- Control-plane calls of the teardown sequence (Cleanup Resources
cells, checkpoint notebook lines 1186-1247).  `listResource name` is the
informational status listing each step issues after its sleep
(`list_monitoring_schedules(EndpointName=...)`,
`list_endpoints(NameContains=...)`,
`list_endpoint_configs(NameContains=...)`,
`list_models(NameContains=...)`). -/
inductive CPCall where
  | stopMonitoringSchedule (name : String)
  | deleteMonitoringSchedule (name : String)
  | deleteEndpoint (name : String)
  | deleteEndpointConfig (name : String)
  | deleteModel (name : String)
  | sleep (seconds : Nat)
  | listResource (name : String)
deriving DecidableEq, Repr

/-- The kind of a stop/delete control-plane operation; `none` for waits
and status listings. -/
inductive OpKind where
  | stopSchedule
  | deleteSchedule
  | deleteEndpoint
  | deleteEndpointConfig
  | deleteModel
deriving DecidableEq, Repr

def opKind : CPCall → Option OpKind
  | CPCall.stopMonitoringSchedule _ => some OpKind.stopSchedule
  | CPCall.deleteMonitoringSchedule _ => some OpKind.deleteSchedule
  | CPCall.deleteEndpoint _ => some OpKind.deleteEndpoint
  | CPCall.deleteEndpointConfig _ => some OpKind.deleteEndpointConfig
  | CPCall.deleteModel _ => some OpKind.deleteModel
  | CPCall.sleep _ => none
  | CPCall.listResource _ => none

/-- One teardown step of the Cleanup Resources cells (checkpoint
notebook lines 1186-1247; `src/unnamed/part_000` lines 270-298 carry the
same five steps commented out): issue the stop/delete call, sleep a
fixed 30 s, then issue a status listing whose result is printed but
never branched on. -/
def teardownStep (c : CPCall) (listTarget : String) : List CPCall :=
  [c, CPCall.sleep 30, CPCall.listResource listTarget]

/-- The complete five-step teardown, in source order: stop-schedule,
delete-schedule, delete-endpoint, delete-endpoint-config, delete-model.
Steps 1-3 list by the endpoint name, step 4 by the endpoint-config name,
step 5 by the model name, exactly as the cells do. -/
def teardown (schedule endpointN config model : String) : List CPCall :=
  teardownStep (CPCall.stopMonitoringSchedule schedule) endpointN ++
  teardownStep (CPCall.deleteMonitoringSchedule schedule) endpointN ++
  teardownStep (CPCall.deleteEndpoint endpointN) endpointN ++
  teardownStep (CPCall.deleteEndpointConfig config) config ++
  teardownStep (CPCall.deleteModel model) model

/-- C3, amended: a complete teardown run issues exactly five stop/delete
operations, in exactly the order stop-monitoring-schedule,
delete-monitoring-schedule, delete-endpoint, delete-endpoint-config,
delete-model, each followed by a fixed 30 s wait; after each wait the
script issues an informational status listing, whose result is never
branched on — the remaining call sequence is the same fixed list
whatever the listing returns, so no step's completion gates the next
operation. -/
theorem teardown_five_ops_fixed_order
    (schedule endpointN config model : String) :
    (teardown schedule endpointN config model).filterMap opKind =
      [OpKind.stopSchedule, OpKind.deleteSchedule, OpKind.deleteEndpoint,
       OpKind.deleteEndpointConfig, OpKind.deleteModel] ∧
    teardown schedule endpointN config model =
      [CPCall.stopMonitoringSchedule schedule, CPCall.sleep 30,
       CPCall.listResource endpointN,
       CPCall.deleteMonitoringSchedule schedule, CPCall.sleep 30,
       CPCall.listResource endpointN,
       CPCall.deleteEndpoint endpointN, CPCall.sleep 30,
       CPCall.listResource endpointN,
       CPCall.deleteEndpointConfig config, CPCall.sleep 30,
       CPCall.listResource config,
       CPCall.deleteModel model, CPCall.sleep 30,
       CPCall.listResource model] :=
  ⟨rfl, rfl⟩

/-- C3 as frozen is false of the program: the teardown does issue
status-read (listing) operations between consecutive stop/delete
operations — here the `list_monitoring_schedules` read issued after the
stop-schedule step — so the run does not move from one operation to the
next with only a fixed wait and no status read. -/
theorem teardown_issues_status_reads :
    CPCall.listResource "third-party-model-endpoint" ∈
      teardown "third-party-model-data-quality-schedule"
        "third-party-model-endpoint" "third-party-model-endpoint-config"
        "third-party-model" := by
  decide

/-- Calls issued by the resource provisioner; the delete calls are
included so the theorem can state that no compensating delete is ever
issued on partial failure. -/
inductive ProvCall where
  | createModel (name : String)
  | createEndpointConfig (name : String)
  | createEndpoint (name : String)
  | deleteModel (name : String)
  | deleteEndpointConfig (name : String)
deriving DecidableEq, Repr

/-- The resource-provisioning cells of the checkpoint notebook:
`sm_client.create_model(ModelName=MODEL_NAME, ...)` (lines 843-847,
returning `ModelArn`), then
`sm_client.create_endpoint_config(EndpointConfigName=MODEL_ENDPOINT_CONFIG, ...)`
(lines 902-908, returning `EndpointConfigArn`), then
`sm_client.create_endpoint(EndpointName=MODEL_ENDPOINT,
EndpointConfigName=MODEL_ENDPOINT_CONFIG)` (lines 936-940, returning
`EndpointArn`), run in that order.  `cm`, `cc`, `ce` are the fallible
control-plane create capabilities (the container, variant and
data-capture parameters fixed in the cells are folded into them;
`ce` takes the endpoint name and the config name it references).  An
error from any call raises uncaught and halts the linear cell sequence,
so later creates are not issued; no cell issues a compensating delete. -/
def provision {ε : Type} (modelName configName endpointName : String)
    (cm cc : String → Except ε String)
    (ce : String → String → Except ε String) :
    List ProvCall × Except ε (String × String × String) :=
  match cm modelName with
  | Except.error e => ([ProvCall.createModel modelName], Except.error e)
  | Except.ok mArn =>
    match cc configName with
    | Except.error e =>
      ([ProvCall.createModel modelName,
        ProvCall.createEndpointConfig configName], Except.error e)
    | Except.ok cArn =>
      match ce endpointName configName with
      | Except.error e =>
        ([ProvCall.createModel modelName,
          ProvCall.createEndpointConfig configName,
          ProvCall.createEndpoint endpointName], Except.error e)
      | Except.ok eArn =>
        ([ProvCall.createModel modelName,
          ProvCall.createEndpointConfig configName,
          ProvCall.createEndpoint endpointName],
         Except.ok (mArn, cArn, eArn))

/-- C5: the provisioner issues create calls strictly in the order model,
endpoint-config, endpoint and on success returns the three identifiers;
if a create raises, no later create is issued and the error propagates;
in every case the call trace contains no compensating delete, so
resources created before a failing step remain (a failed endpoint
creation after successful model and config creation leaves both in
place). -/
theorem provisioner_sequential_no_compensation {ε : Type}
    (modelName configName endpointName : String)
    (cm cc : String → Except ε String)
    (ce : String → String → Except ε String) :
    (∀ n, ProvCall.deleteModel n ∉
        (provision modelName configName endpointName cm cc ce).1 ∧
      ProvCall.deleteEndpointConfig n ∉
        (provision modelName configName endpointName cm cc ce).1) ∧
    (∀ e, cm modelName = Except.error e →
      provision modelName configName endpointName cm cc ce =
        ([ProvCall.createModel modelName], Except.error e)) ∧
    (∀ mArn e, cm modelName = Except.ok mArn →
      cc configName = Except.error e →
      provision modelName configName endpointName cm cc ce =
        ([ProvCall.createModel modelName,
          ProvCall.createEndpointConfig configName], Except.error e)) ∧
    (∀ mArn cArn e, cm modelName = Except.ok mArn →
      cc configName = Except.ok cArn → ce endpointName configName = Except.error e →
      provision modelName configName endpointName cm cc ce =
        ([ProvCall.createModel modelName,
          ProvCall.createEndpointConfig configName,
          ProvCall.createEndpoint endpointName], Except.error e)) ∧
    (∀ mArn cArn eArn, cm modelName = Except.ok mArn →
      cc configName = Except.ok cArn → ce endpointName configName = Except.ok eArn →
      provision modelName configName endpointName cm cc ce =
        ([ProvCall.createModel modelName,
          ProvCall.createEndpointConfig configName,
          ProvCall.createEndpoint endpointName],
         Except.ok (mArn, cArn, eArn))) := by
  refine ⟨?_, ?_, ?_, ?_, ?_⟩
  · intro n
    cases hm : cm modelName with
    | error e => simp [provision, hm]
    | ok mArn =>
      cases hc : cc configName with
      | error e => simp [provision, hm, hc]
      | ok cArn =>
        cases he : ce endpointName configName with
        | error e => simp [provision, hm, hc, he]
        | ok eArn => simp [provision, hm, hc, he]
  · intro e hm
    simp [provision, hm]
  · intro mArn e hm hc
    simp [provision, hm, hc]
  · intro mArn cArn e hm hc he
    simp [provision, hm, hc, he]
  · intro mArn cArn eArn hm hc he
    simp [provision, hm, hc, he]

theorem provisioner_sequential_no_compensation_witness :
    provision "third-party-model" "third-party-model-endpoint-config"
        "third-party-model-endpoint"
        (fun _ => (Except.ok "m-arn" : Except String String))
        (fun _ => Except.ok "c-arn") (fun _ _ => Except.error "limit") =
      ([ProvCall.createModel "third-party-model",
        ProvCall.createEndpointConfig "third-party-model-endpoint-config",
        ProvCall.createEndpoint "third-party-model-endpoint"],
       Except.error "limit") ∧
    ProvCall.deleteModel "third-party-model" ∉
      (provision "third-party-model" "third-party-model-endpoint-config"
        "third-party-model-endpoint"
        (fun _ => (Except.ok "m-arn" : Except String String))
        (fun _ => Except.ok "c-arn") (fun _ _ => Except.error "limit")).1 :=
  ⟨(provisioner_sequential_no_compensation "third-party-model"
      "third-party-model-endpoint-config" "third-party-model-endpoint"
      (fun _ => Except.ok "m-arn") (fun _ => Except.ok "c-arn")
      (fun _ _ => Except.error "limit")).2.2.2.1 "m-arn" "c-arn" "limit"
      rfl rfl rfl,
   ((provisioner_sequential_no_compensation "third-party-model"
      "third-party-model-endpoint-config" "third-party-model-endpoint"
      (fun _ => Except.ok "m-arn") (fun _ => Except.ok "c-arn")
      (fun _ _ => Except.error "limit")).1 "third-party-model").1⟩

end ModelMonitor
